import Mathlib

/-!
Verification of the porkbunjs request pipeline (src/client.ts, src/errors.ts).

JSON values are embedded as a mutual inductive so that every function below
is structurally recursive and evaluates by kernel reduction.  Objects keep
field order, as JavaScript objects do; keys are unique in any object that
comes out of JSON.parse, and lookups return the first matching field.
-/

namespace Porkbun

mutual

inductive Json where
  | null : Json
  | bool (b : Bool) : Json
  | num (n : Int) : Json
  | str (s : String) : Json
  | arr (elems : JsonList) : Json
  | obj (fields : JsonFields) : Json

inductive JsonList where
  | nil : JsonList
  | cons (head : Json) (tail : JsonList) : JsonList

inductive JsonFields where
  | nil : JsonFields
  | cons (key : String) (value : Json) (tail : JsonFields) : JsonFields

end

/-- Lookup of a property on a JavaScript object: first field with the key. -/
def lookupField : JsonFields → String → Option Json
  | .nil, _ => none
  | .cons k v rest, key => if k = key then some v else lookupField rest key

/-- Effect of the JavaScript delete operator on a property: the field is gone. -/
def removeField : JsonFields → String → JsonFields
  | .nil, _ => .nil
  | .cons k v rest, key =>
      if k = key then removeField rest key else .cons k v (removeField rest key)

def appendFields : JsonFields → JsonFields → JsonFields
  | .nil, b => b
  | .cons k v rest, b => .cons k v (appendFields rest b)

/-- Fields of the first object, with the value replaced by the second object
where the second object has the same key (object spread updates in place). -/
def overrideFields : JsonFields → JsonFields → JsonFields
  | .nil, _ => .nil
  | .cons k v rest, b => .cons k ((lookupField b k).getD v) (overrideFields rest b)

/-- Fields of the first object whose key does not occur in the second object. -/
def restFields : JsonFields → JsonFields → JsonFields
  | .nil, _ => .nil
  | .cons k v rest, a =>
      if (lookupField a k).isSome then restFields rest a
      else .cons k v (restFields rest a)

/-- JavaScript object spread of two objects: keys of the first in order with
the value of the second on a collision, then the new keys of the second. -/
def spreadTwo (a b : JsonFields) : JsonFields :=
  appendFields (overrideFields a b) (restFields b a)

mutual

/-- The private method convertApiResponse of PorkbunClient (client.ts lines
46 to 76): null and primitives are returned as is, arrays are mapped
elementwise, and on an object every field value equal to the string "yes" or
"no" becomes a boolean while object or array values are converted
recursively.  A string element of an array is a primitive when the recursion
reaches it, so it is returned unchanged. -/
def convertApiResponse : Json → Json
  | .arr es => .arr (convertElems es)
  | .obj fs => .obj (convertFields fs)
  | v => v

def convertElems : JsonList → JsonList
  | .nil => .nil
  | .cons x xs => .cons (convertApiResponse x) (convertElems xs)

def convertFields : JsonFields → JsonFields
  | .nil => .nil
  | .cons k (.str s) rest =>
      .cons k (if s = "yes" then .bool true else if s = "no" then .bool false else .str s)
        (convertFields rest)
  | .cons k (.arr es) rest => .cons k (.arr (convertElems es)) (convertFields rest)
  | .cons k (.obj fs) rest => .cons k (.obj (convertFields fs)) (convertFields rest)
  | .cons k v rest => .cons k v (convertFields rest)

end

/-- Transformation applied by convertApiResponse to a single object field
value: the sentinel rewrite on strings, the recursive conversion on objects
and arrays, the identity elsewhere. -/
def convertFieldValue : Json → Json
  | .str s => if s = "yes" then .bool true else if s = "no" then .bool false else .str s
  | .arr es => .arr (convertElems es)
  | .obj fs => .obj (convertFields fs)
  | v => v

/-- Characterwise test that the first list starts with the second list. -/
def startsWithChars : List Char → List Char → Bool
  | [], _ => true
  | _ :: _, [] => false
  | a :: as, b :: bs => a = b && startsWithChars as bs

/-- Occurrence of a character pattern anywhere in a character list, the
semantics of String.prototype.includes. -/
def containsSub : List Char → List Char → Bool
  | [], pat => pat.isEmpty
  | c :: rest, pat => startsWithChars pat (c :: rest) || containsSub rest pat

/-- The semantics of the JavaScript call s.includes(pattern). -/
def containsSubstring (s pattern : String) : Bool :=
  containsSub s.data pattern.data

/-- The structured rate limit metadata declared in types.ts as
DomainCheckLimits: a TTL window, a limit threshold, a usage count and a
natural language summary.  The limits constructor parameter of
PorkbunRateLimitError has this type. -/
structure DomainCheckLimits where
  TTL : String
  limit : String
  used : Int
  naturalLanguage : String
deriving DecidableEq

/-- The JavaScript error values that can escape the client to the caller,
identified by their runtime class (errors.ts): PorkbunAuthError,
PorkbunRateLimitError, and the plain built-in Error used everywhere else.
The limits field of rateLimitError mirrors the optional limits property of
PorkbunRateLimitError. -/
inductive PorkbunError where
  | authError (message : String)
  | rateLimitError (message : String) (limits : Option DomainCheckLimits)
  | plainError (message : String)
deriving DecidableEq

/-- The runtime class name of a thrown error, the JavaScript field e.name
set by the constructors in errors.ts and by the built-in Error. -/
def errClass : PorkbunError → String
  | .authError _ => "PorkbunAuthError"
  | .rateLimitError _ _ => "PorkbunRateLimitError"
  | .plainError _ => "Error"

/-- A value thrown inside the try block of makeRequest, before the catch
block reclassifies it: one of the two library error classes, a built-in
Error carrying its runtime name, or a thrown non-Error value. -/
inductive Thrown where
  | auth (message : String)
  | rateLimit (message : String) (limits : Option DomainCheckLimits)
  | jsError (errName : String) (message : String)
  | nonErrorValue
deriving DecidableEq

/-- An HTTP response as the fetch API exposes it to this client: the numeric
status, the status text, and the JSON parse of the body. -/
structure HttpResponse where
  status : Nat
  statusText : String
  body : Json

/-- Outcome of the awaited fetch call, taken as a parameter by the model of
the pipeline (shallow embedding of the network effect): a response, the
rejection raised when the AbortController fired because the configured
timeout elapsed first (an Error named AbortError), any other rejection (an
Error with its runtime name and message), or a thrown non-Error value. -/
inductive FetchOutcome where
  | success (response : HttpResponse)
  | abortError
  | failure (errName : String) (message : String)
  | nonErrorThrown

/-- The Response.ok predicate of the fetch API: status in the range 200 to
299. -/
def respOk (status : Nat) : Bool :=
  decide (200 ≤ status ∧ status ≤ 299)

/-- Reading result.status off the parsed body for the envelope test; on a
primitive or array body the property access yields undefined, modeled as
none.  On a null body the access throws instead of yielding a value; that
path is modeled by a separate branch of tryBlock, taken before this test
applies. -/
def statusField (body : Json) : Option Json :=
  match body with
  | .obj fs => lookupField fs "status"
  | _ => none

/-- The check result.status === ERROR of makeRequest (client.ts line 111);
only an object body whose status field holds exactly the string ERROR
passes. -/
def isErrorEnvelope (body : Json) : Bool :=
  match statusField body with
  | some (.str s) => s = "ERROR"
  | _ => false

/-- Effect of the statement delete result.status (client.ts line 120).  On
a primitive or array body the delete of the absent property is a no-op. -/
def removeStatusField (body : Json) : Json :=
  match body with
  | .obj fs => .obj (removeField fs "status")
  | v => v

/-- The rate limit test of makeRequest (client.ts lines 112 to 115) on a
string message: result.message includes the text rate limit, or includes
the text limit. -/
def containsLimitPhrase (m : String) : Bool :=
  containsSubstring m "rate limit" || containsSubstring m "limit"

/-- The Array.prototype.includes test with a string argument, as it runs
when result.message is an array: SameValueZero equality with the string can
hold only for an element that is that exact string. -/
def jsonListHasStr : JsonList → String → Bool
  | .nil, _ => false
  | .cons (.str s) rest, t => s = t || jsonListHasStr rest t
  | .cons _ rest, t => jsonListHasStr rest t

mutual

/-- The JavaScript String conversion of a JSON value, as the Error
constructor applies it to a non-string message argument: arrays join their
elements with commas, objects print as object Object in brackets. -/
def jsToString : Json → String
  | .null => "null"
  | .bool true => "true"
  | .bool false => "false"
  | .num n => toString n
  | .str s => s
  | .arr xs => joinElems xs
  | .obj _ => "[object Object]"

/-- Array.prototype.join with the comma separator, where a null element
contributes the empty string. -/
def joinElems : JsonList → String
  | .nil => ""
  | .cons x .nil => jsElemString x
  | .cons x (.cons y ys) => jsElemString x ++ "," ++ joinElems (.cons y ys)

def jsElemString : Json → String
  | .null => ""
  | .bool true => "true"
  | .bool false => "false"
  | .num n => toString n
  | .str s => s
  | .arr xs => joinElems xs
  | .obj _ => "[object Object]"

end

/-- The ERROR branch of makeRequest (client.ts lines 111 to 118), reading
result.message off the envelope fields.  A string message takes the limit
test; an absent or null message short-circuits the optional chaining, is
falsy, and raises the plain Error with the fallback text; an array message
runs Array.prototype.includes and, being truthy even when empty, is turned
into text by the Error constructors; any other message value (number,
boolean, object) makes the .includes call itself throw a TypeError, since
such a value has no includes method.  The TypeError wording is the V8
phrasing of Node 16 and later, the engines the package declares; no theorem
depends on that text. -/
def errorEnvelopeBranch (fields : JsonFields) : Except Thrown Json :=
  match lookupField fields "message" with
  | none => .error (.jsError "Error" "Unknown API error")
  | some .null => .error (.jsError "Error" "Unknown API error")
  | some (.str m) =>
      if containsLimitPhrase m then .error (.rateLimit m none)
      else .error (.jsError "Error" (if m = "" then "Unknown API error" else m))
  | some (.arr xs) =>
      if jsonListHasStr xs "rate limit" || jsonListHasStr xs "limit" then
        .error (.rateLimit (jsToString (.arr xs)) none)
      else .error (.jsError "Error" (jsToString (.arr xs)))
  | some _ => .error (.jsError "TypeError" "result.message?.includes is not a function")

/-- The try block of makeRequest applied to a delivered HTTP response
(client.ts lines 98 to 121): non-2xx statuses raise before the body is ever
read, a 403 as a PorkbunAuthError and anything else as a plain Error holding
the status and status text; on a 2xx, reading result.status off a null body
throws a TypeError (the V8 wording of the supported Node versions); an
object body whose status field is exactly the string ERROR takes the error
branch; every other body has its status property deleted (a no-op except on
objects) and the converted body is returned. -/
def tryBlock (resp : HttpResponse) : Except Thrown Json :=
  if respOk resp.status then
    match resp.body with
    | .null =>
        .error (.jsError "TypeError" "Cannot read properties of null (reading 'status')")
    | .obj fields =>
        match lookupField fields "status" with
        | some (.str s) =>
            if s = "ERROR" then errorEnvelopeBranch fields
            else .ok (convertApiResponse (.obj (removeField fields "status")))
        | _ => .ok (convertApiResponse (.obj (removeField fields "status")))
    | body => .ok (convertApiResponse body)
  else
    if resp.status = 403 then
      .error (.auth "Authentication failed or additional authentication required")
    else
      .error (.jsError "Error" ("HTTP " ++ toString resp.status ++ ": " ++ resp.statusText))

/-- The try block of makeRequest over a fetch outcome: a rejection of the
awaited fetch propagates as the thrown value. -/
def runTry (outcome : FetchOutcome) : Except Thrown Json :=
  match outcome with
  | .success resp => tryBlock resp
  | .abortError => .error (.jsError "AbortError" "This operation was aborted")
  | .failure n m => .error (.jsError n m)
  | .nonErrorThrown => .error .nonErrorValue

/-- The catch block of makeRequest (client.ts lines 122 to 136): an Error
named AbortError becomes a plain Error with message Request timeout, the two
library error classes are rethrown unchanged, any other Error is rewrapped
with the prefix API request failed, and a thrown non-Error yields the
message Unknown error occurred. -/
def handleCatch : Thrown → PorkbunError
  | .auth m => .authError m
  | .rateLimit m l => .rateLimitError m l
  | .jsError n m =>
      if n = "AbortError" then .plainError "Request timeout"
      else .plainError ("API request failed: " ++ m)
  | .nonErrorValue => .plainError "Unknown error occurred"

/-- The private method makeRequest of PorkbunClient (client.ts lines 78 to
137), as a function of the fetch outcome.  The URL and body it sends are
modeled separately by requestUrl and requestBody; the timeout wiring
setTimeout of controller.abort is modeled by the abortError outcome, which
occurs exactly when the configured timeout elapses before the response. -/
def makeRequest (outcome : FetchOutcome) : Except PorkbunError Json :=
  match runTry outcome with
  | .ok v => .ok v
  | .error t => .error (handleCatch t)

/-- The public method getPricing (client.ts lines 152 to 173).  It does not
go through makeRequest: it runs its own fetch with no abort controller,
raises a plain Error on a non-2xx status, and otherwise converts and returns
the parsed body without inspecting result.status and without deleting it;
every rejection is rewrapped with the prefix Failed to get pricing. -/
def getPricing (outcome : FetchOutcome) : Except PorkbunError Json :=
  match outcome with
  | .success resp =>
      if respOk resp.status then .ok (convertApiResponse resp.body)
      else
        .error (.plainError ("Failed to get pricing: " ++
          ("HTTP " ++ toString resp.status ++ ": " ++ resp.statusText)))
  | .abortError => .error (.plainError "Failed to get pricing: This operation was aborted")
  | .failure _ m => .error (.plainError ("Failed to get pricing: " ++ m))
  | .nonErrorThrown => .error (.plainError "Failed to get pricing: Unknown error")

/-- The construction options of PorkbunClient (types.ts, PorkbunConfig):
baseUrl and timeout are optional. -/
structure PorkbunConfig where
  apiKey : String
  secretKey : String
  baseUrl : Option String := none
  timeout : Option Int := none

/-- The private fields of a constructed PorkbunClient. -/
structure Client where
  apiKey : String
  secretKey : String
  baseUrl : String
  timeout : Int

def defaultBaseUrl : String := "https://api.porkbun.com/api/json/v3"

/-- The constructor of PorkbunClient (client.ts lines 35 to 40).  The
defaults are applied with the JavaScript or-operator, so they kick in for
any falsy configured value: an absent or empty baseUrl and an absent or
zero timeout.  (NaN, the one other falsy number, is not representable
here.) -/
def mkClient (config : PorkbunConfig) : Client :=
  { apiKey := config.apiKey
    secretKey := config.secretKey
    baseUrl :=
      match config.baseUrl with
      | some s => if s = "" then defaultBaseUrl else s
      | none => defaultBaseUrl
    timeout :=
      match config.timeout with
      | some t => if t = 0 then 30000 else t
      | none => 30000 }

/-- The private method getAuth (client.ts lines 42 to 44): the object
literal with apikey then secretapikey. -/
def getAuth (c : Client) : JsonFields :=
  .cons "apikey" (.str c.apiKey) (.cons "secretapikey" (.str c.secretKey) .nil)

/-- The URL built by makeRequest (client.ts line 82). -/
def requestUrl (c : Client) (endpoint : String) : String :=
  c.baseUrl ++ endpoint

/-- The outgoing body built by makeRequest (client.ts line 83): the object
spread of the auth pair first and the caller data second. -/
def requestBody (c : Client) (data : JsonFields) : JsonFields :=
  spreadTwo (getAuth c) data

/-- The DNS record type union of types.ts. -/
inductive DNSRecordType where
  | A | MX | CNAME | ALIAS | TXT | NS | AAAA | SRV | TLSA | CAA | HTTPS | SVCB
deriving DecidableEq

def DNSRecordType.toStr : DNSRecordType → String
  | .A => "A"
  | .MX => "MX"
  | .CNAME => "CNAME"
  | .ALIAS => "ALIAS"
  | .TXT => "TXT"
  | .NS => "NS"
  | .AAAA => "AAAA"
  | .SRV => "SRV"
  | .TLSA => "TLSA"
  | .CAA => "CAA"
  | .HTTPS => "HTTPS"
  | .SVCB => "SVCB"

/-- The endpoint chosen by editDNSRecordsByType (client.ts lines 318 to
323): the subdomain segment is appended only when the subdomain, tested for
truthiness, is non-empty. -/
def editDNSRecordsByTypePath (domain : String) (t : DNSRecordType) (subdomain : String) : String :=
  if subdomain = "" then "/dns/editByNameType/" ++ domain ++ "/" ++ t.toStr
  else "/dns/editByNameType/" ++ domain ++ "/" ++ t.toStr ++ "/" ++ subdomain

/-- The endpoint chosen by deleteDNSRecordsByType (client.ts lines 341 to
345). -/
def deleteDNSRecordsByTypePath (domain : String) (t : DNSRecordType) (subdomain : String) : String :=
  if subdomain = "" then "/dns/deleteByNameType/" ++ domain ++ "/" ++ t.toStr
  else "/dns/deleteByNameType/" ++ domain ++ "/" ++ t.toStr ++ "/" ++ subdomain

/-- The endpoint chosen by getDNSRecordsByType (client.ts lines 362 to
367). -/
def getDNSRecordsByTypePath (domain : String) (t : DNSRecordType) (subdomain : String) : String :=
  if subdomain = "" then "/dns/retrieveByNameType/" ++ domain ++ "/" ++ t.toStr
  else "/dns/retrieveByNameType/" ++ domain ++ "/" ++ t.toStr ++ "/" ++ subdomain

/-- Whether the top level of a JSON value still carries a status property. -/
def hasStatusField (j : Json) : Bool :=
  match j with
  | .obj fs => (lookupField fs "status").isSome
  | _ => false

/-- One navigation step into a JSON value: a property access on an object or
an element access on an array. -/
inductive PathStep where
  | field (key : String)
  | index (i : Nat)

def JsonList.get? : JsonList → Nat → Option Json
  | .nil, _ => none
  | .cons x _, 0 => some x
  | .cons _ xs, n + 1 => JsonList.get? xs n

/-- Navigation along a path of steps; none when a step does not apply. -/
def getPath : Json → List PathStep → Option Json
  | j, [] => some j
  | .obj fs, .field k :: p =>
      match lookupField fs k with
      | some v => getPath v p
      | none => none
  | .arr xs, .index n :: p =>
      match xs.get? n with
      | some v => getPath v p
      | none => none
  | _, _ :: _ => none

/-- Whether the last step of a path is a property access, i.e. whether the
value the path reaches sits in an object field rather than in an array slot
or at the top level. -/
def lastIsFieldStep (p : List PathStep) : Bool :=
  match p.getLast? with
  | some (.field _) => true
  | _ => false

/-- What convertApiResponse does to the value reached by a path: the object
field transformation when the value sits in an object field, and the full
conversion (which leaves every primitive unchanged) otherwise. -/
def convertAtPosition (fieldPosition : Bool) (v : Json) : Json :=
  if fieldPosition then convertFieldValue v else convertApiResponse v

/-! Helper lemmas. -/

theorem convertFields_cons (k : String) (v : Json) (rest : JsonFields) :
    convertFields (.cons k v rest) = .cons k (convertFieldValue v) (convertFields rest) := by
  cases v <;> rfl

theorem lookupField_convertFields : ∀ (fs : JsonFields) (k : String),
    lookupField (convertFields fs) k = (lookupField fs k).map convertFieldValue
  | .nil, _ => rfl
  | .cons key v rest, k => by
      rw [convertFields_cons]
      by_cases h : key = k
      · simp [lookupField, h]
      · simp [lookupField, h, lookupField_convertFields rest k]

theorem get?_convertElems : ∀ (xs : JsonList) (n : Nat),
    (convertElems xs).get? n = (xs.get? n).map convertApiResponse
  | .nil, _ => rfl
  | .cons _ _, 0 => rfl
  | .cons x tail, n + 1 => by
      simpa [convertElems, JsonList.get?] using get?_convertElems tail n

theorem lookupField_removeField_self : ∀ (fs : JsonFields) (k : String),
    lookupField (removeField fs k) k = none
  | .nil, _ => rfl
  | .cons key v rest, k => by
      by_cases h : key = k
      · simp [removeField, h, lookupField_removeField_self rest k]
      · simp [removeField, lookupField, h, lookupField_removeField_self rest k]

theorem lookupField_appendFields : ∀ (a b : JsonFields) (k : String),
    lookupField (appendFields a b) k =
      match lookupField a k with
      | some v => some v
      | none => lookupField b k
  | .nil, _, _ => rfl
  | .cons key v rest, b, k => by
      by_cases h : key = k
      · simp [appendFields, lookupField, h]
      · simp [appendFields, lookupField, h, lookupField_appendFields rest b k]

theorem lookupField_overrideFields : ∀ (a b : JsonFields) (k : String),
    lookupField (overrideFields a b) k =
      (lookupField a k).map (fun v => (lookupField b k).getD v)
  | .nil, _, _ => rfl
  | .cons key v rest, b, k => by
      by_cases h : key = k
      · subst h; simp [overrideFields, lookupField]
      · simp [overrideFields, lookupField, h, lookupField_overrideFields rest b k]

theorem hasStatusField_convert_removeStatus (b : Json) :
    hasStatusField (convertApiResponse (removeStatusField b)) = false := by
  cases b with
  | obj fs =>
      simp [removeStatusField, convertApiResponse, hasStatusField,
        lookupField_convertFields, lookupField_removeField_self]
  | null => rfl
  | bool b => rfl
  | num n => rfl
  | str s => rfl
  | arr es => rfl

theorem isErrorEnvelope_iff_fields (body : Json) :
    isErrorEnvelope body = true ↔
      ∃ fields, body = .obj fields ∧ lookupField fields "status" = some (.str "ERROR") := by
  constructor
  · intro h
    cases body with
    | obj fields =>
        refine ⟨fields, rfl, ?_⟩
        cases hl : lookupField fields "status" with
        | none => simp [isErrorEnvelope, statusField, hl] at h
        | some v =>
            cases v with
            | str s =>
                simp [isErrorEnvelope, statusField, hl] at h
                rw [h]
            | null => simp [isErrorEnvelope, statusField, hl] at h
            | bool b => simp [isErrorEnvelope, statusField, hl] at h
            | num n => simp [isErrorEnvelope, statusField, hl] at h
            | arr es => simp [isErrorEnvelope, statusField, hl] at h
            | obj fs => simp [isErrorEnvelope, statusField, hl] at h
    | null => simp [isErrorEnvelope, statusField] at h
    | bool b => simp [isErrorEnvelope, statusField] at h
    | num n => simp [isErrorEnvelope, statusField] at h
    | str s => simp [isErrorEnvelope, statusField] at h
    | arr es => simp [isErrorEnvelope, statusField] at h
  · rintro ⟨fields, rfl, hl⟩
    simp [isErrorEnvelope, statusField, hl]

theorem containsSub_of_startsWith (s p : List Char) (h : startsWithChars p s = true) :
    containsSub s p = true := by
  cases s with
  | nil =>
      cases p with
      | nil => rfl
      | cons a as => simp [startsWithChars] at h
  | cons c rest => simp [containsSub, h]

theorem containsSub_of_startsWith_append :
    ∀ (a : List Char) (s b : List Char), startsWithChars (a ++ b) s = true →
      containsSub s b = true := by
  intro a
  induction a with
  | nil =>
      intro s b h
      exact containsSub_of_startsWith s b (by simpa using h)
  | cons x xs ih =>
      intro s b h
      cases s with
      | nil => simp [startsWithChars] at h
      | cons y ys =>
          simp only [List.cons_append, startsWithChars, Bool.and_eq_true] at h
          have hsub := ih ys b h.2
          simp [containsSub, hsub]

theorem containsSub_append (s : List Char) :
    ∀ (a b : List Char), containsSub s (a ++ b) = true → containsSub s b = true := by
  induction s with
  | nil =>
      intro a b h
      simp only [containsSub] at h ⊢
      rcases List.append_eq_nil.mp (by simpa using h) with ⟨_, hb⟩
      simp [hb]
  | cons c rest ih =>
      intro a b h
      simp only [containsSub, Bool.or_eq_true] at h
      rcases h with h | h
      · exact containsSub_of_startsWith_append a (c :: rest) b h
      · have hsub := ih a b h
        simp [containsSub, hsub]

theorem containsSubstring_limit_of_rateLimit (m : String)
    (h : containsSubstring m "rate limit" = true) :
    containsSubstring m "limit" = true := by
  have hdata : ("rate limit").data = ("rate ").data ++ ("limit").data := by decide
  unfold containsSubstring at h ⊢
  rw [hdata] at h
  exact containsSub_append m.data _ _ h

theorem containsLimitPhrase_eq (m : String) :
    containsLimitPhrase m = containsSubstring m "limit" := by
  unfold containsLimitPhrase
  cases hl : containsSubstring m "limit" with
  | true => simp [hl]
  | false =>
      cases hr : containsSubstring m "rate limit" with
      | false => simp [hl, hr]
      | true => exact absurd (containsSubstring_limit_of_rateLimit m hr) (by simp [hl])

theorem lastIsFieldStep_cons_cons (s1 s2 : PathStep) (p : List PathStep) :
    lastIsFieldStep (s1 :: s2 :: p) = lastIsFieldStep (s2 :: p) := by
  simp [lastIsFieldStep, List.getLast?_cons_cons]

theorem strLast_append (a b : String) (hb : b.data ≠ []) :
    (a ++ b).data.getLast? = b.data.getLast? := by
  rw [String.data_append]
  exact List.getLast?_append_of_ne_nil _ hb

/-! Claim theorems. -/

/-- C1 counterexample: the outgoing body is the spread of the credentials
first and the caller payload second, so a caller payload that carries its
own apikey field overrides the credential: with client key KEY, a payload
field apikey set to EVIL ends up in the body, and EVIL is not KEY.  This
refutes the claim that the credential values win the collision. -/
theorem requestBody_caller_overrides_credentials :
    lookupField
      (requestBody (mkClient { apiKey := "KEY", secretKey := "SECRET" })
        (.cons "apikey" (.str "EVIL") .nil)) "apikey" = some (.str "EVIL")
      ∧ ("EVIL" : String) ≠ "KEY" :=
  ⟨rfl, by decide⟩

/-- C1 amended: the outgoing body always carries both credential fields, but
on a name collision the caller payload wins, because the spread in client.ts
line 83 puts the payload last; the credential values are used only when the
payload has no field of the same name. -/
theorem requestBody_credential_fields (c : Client) (data : JsonFields) :
    (lookupField data "apikey" = none →
      lookupField (requestBody c data) "apikey" = some (.str c.apiKey)) ∧
    (∀ v, lookupField data "apikey" = some v →
      lookupField (requestBody c data) "apikey" = some v) ∧
    (lookupField data "secretapikey" = none →
      lookupField (requestBody c data) "secretapikey" = some (.str c.secretKey)) ∧
    (∀ v, lookupField data "secretapikey" = some v →
      lookupField (requestBody c data) "secretapikey" = some v) := by
  have key1 : lookupField (requestBody c data) "apikey"
      = some ((lookupField data "apikey").getD (.str c.apiKey)) := by
    unfold requestBody spreadTwo
    rw [lookupField_appendFields, lookupField_overrideFields]
    rfl
  have key2 : lookupField (requestBody c data) "secretapikey"
      = some ((lookupField data "secretapikey").getD (.str c.secretKey)) := by
    unfold requestBody spreadTwo
    rw [lookupField_appendFields, lookupField_overrideFields]
    rfl
  refine ⟨?_, ?_, ?_, ?_⟩
  · intro h; simp [key1, h]
  · intro v h; simp [key1, h]
  · intro h; simp [key2, h]
  · intro v h; simp [key2, h]

/-- C1 witness: a payload with no credential fields gets the client keys. -/
theorem requestBody_credential_fields_witness :
    lookupField
      (requestBody (mkClient { apiKey := "KEY", secretKey := "SECRET" })
        (.cons "domain" (.str "example.com") .nil)) "apikey" = some (.str "KEY") :=
  (requestBody_credential_fields (mkClient { apiKey := "KEY", secretKey := "SECRET" })
    (.cons "domain" (.str "example.com") .nil)).1 rfl

/-- C2 counterexample: a string element sitting directly inside an array is
reached by the .map branch of convertApiResponse, where a string is a
primitive and is returned unchanged, so the sentinel yes inside an array is
not rewritten to a boolean.  This refutes the claim that string leaves
directly inside arrays are rewritten. -/
theorem convertApiResponse_array_string_counterexample :
    convertApiResponse (Json.arr (JsonList.cons (Json.str "yes") JsonList.nil)) =
      Json.arr (JsonList.cons (Json.str "yes") JsonList.nil) ∧
    Json.str "yes" ≠ Json.bool true :=
  ⟨rfl, fun h => Json.noConfusion h⟩

/-- C2 amended: convertApiResponse rewrites exactly the yes and no string
values that sit in an object field, at any nesting depth, and alters nothing
else.  Stated over path navigation: whatever value a path reaches in the
input, the same path in the converted output reaches the object field
transformation of it when the last step is a property access (sentinel
strings become booleans, everything else is converted recursively), and the
plain conversion of it otherwise, which is the identity on every primitive,
in particular on a string element of an array and on a top level string. -/
theorem convertApiResponse_path_characterization :
    ∀ (p : List PathStep) (j v : Json), getPath j p = some v →
      getPath (convertApiResponse j) p = some (convertAtPosition (lastIsFieldStep p) v) := by
  intro p
  induction p with
  | nil =>
      intro j v h
      simp only [getPath, Option.some.injEq] at h
      subst h
      simp [getPath, lastIsFieldStep, convertAtPosition]
  | cons step p ih =>
      intro j v h
      cases step with
      | field k =>
          cases j with
          | null => simp [getPath] at h
          | bool b => simp [getPath] at h
          | num n => simp [getPath] at h
          | str s => simp [getPath] at h
          | arr es => simp [getPath] at h
          | obj fs =>
              cases hw : lookupField fs k with
              | none => simp [getPath, hw] at h
              | some w =>
                  simp only [getPath, hw] at h
                  have hl : lookupField (convertFields fs) k = some (convertFieldValue w) := by
                    rw [lookupField_convertFields, hw]; rfl
                  cases p with
                  | nil =>
                      simp only [getPath, Option.some.injEq] at h
                      subst h
                      simp [convertApiResponse, getPath, hl, lastIsFieldStep, convertAtPosition]
                  | cons s2 p2 =>
                      have hcv : convertFieldValue w = convertApiResponse w := by
                        cases w with
                        | obj _ => rfl
                        | arr _ => rfl
                        | null => cases s2 <;> simp [getPath] at h
                        | bool _ => cases s2 <;> simp [getPath] at h
                        | num _ => cases s2 <;> simp [getPath] at h
                        | str _ => cases s2 <;> simp [getPath] at h
                      have hrec := ih w v h
                      rw [lastIsFieldStep_cons_cons]
                      simp only [convertApiResponse, getPath, hl]
                      rw [hcv]
                      exact hrec
      | index n =>
          cases j with
          | null => simp [getPath] at h
          | bool b => simp [getPath] at h
          | num m => simp [getPath] at h
          | str s => simp [getPath] at h
          | obj fs => simp [getPath] at h
          | arr xs =>
              cases hw : xs.get? n with
              | none => simp [getPath, hw] at h
              | some w =>
                  simp only [getPath, hw] at h
                  have hl : (convertElems xs).get? n = some (convertApiResponse w) := by
                    rw [get?_convertElems, hw]; rfl
                  cases p with
                  | nil =>
                      simp only [getPath, Option.some.injEq] at h
                      subst h
                      simp [convertApiResponse, getPath, hl, lastIsFieldStep, convertAtPosition]
                  | cons s2 p2 =>
                      have hrec := ih w v h
                      rw [lastIsFieldStep_cons_cons]
                      simp only [convertApiResponse, getPath, hl]
                      exact hrec

/-- C2 witness: a yes value of an object field becomes the boolean true. -/
theorem convertApiResponse_path_characterization_witness :
    getPath (convertApiResponse (Json.obj (JsonFields.cons "a" (Json.str "yes") JsonFields.nil)))
      [PathStep.field "a"] = some (Json.bool true) :=
  convertApiResponse_path_characterization [PathStep.field "a"]
    (Json.obj (JsonFields.cons "a" (Json.str "yes") JsonFields.nil)) (Json.str "yes") rfl

/-- C3: on a 2xx envelope failure whose message matches the rate limit
phrasing and which carries the full structured limit metadata, the raised
PorkbunRateLimitError has the message but its limits field is none, because
client.ts line 116 constructs the error from the message alone and never
reads result.limits.  errors.ts declares the limits parameter and the
README documents reading error.limits for the current limits, so the claim
states the intended behavior and the code drops the metadata. -/
theorem makeRequest_rateLimit_limits_dropped :
    makeRequest (.success ⟨200, "OK",
      .obj (.cons "status" (.str "ERROR") (.cons "message" (.str "rate limit exceeded")
        (.cons "limits" (.obj (.cons "TTL" (.str "10") (.cons "limit" (.str "1")
          (.cons "used" (.num 1) (.cons "naturalLanguage" (.str "1 of 1 used") .nil)))))
          .nil)))⟩) =
      .error (.rateLimitError "rate limit exceeded" none) := rfl

/-- C4 counterexample: getPricing does not route through makeRequest.  On a
2xx response whose envelope is an API failure it returns the converted body
as a success result, with the status discriminator still present, instead of
failing.  This refutes the claim that every public operation goes through
the shared pipeline. -/
theorem getPricing_error_envelope_returned_as_success :
    getPricing (.success ⟨200, "OK",
      .obj (.cons "status" (.str "ERROR") (.cons "message" (.str "rate limit exceeded") .nil))⟩) =
      .ok (.obj (.cons "status" (.str "ERROR") (.cons "message" (.str "rate limit exceeded") .nil)))
    ∧ hasStatusField
        (.obj (.cons "status" (.str "ERROR") (.cons "message" (.str "rate limit exceeded") .nil))) = true :=
  ⟨rfl, rfl⟩

/-- C4 amended: every public operation except getPricing routes through
makeRequest, where a 2xx envelope failure always fails with a rate limit or
a plain error and is never returned as success, and where the status
discriminator is stripped from every returned success result; a 2xx body of
JSON null fails with a wrapped TypeError (reading its status property
throws) instead of succeeding; getPricing runs its own fetch, returns the
converted body as success whatever the envelope status says, and keeps the
status field. -/
theorem makeRequest_pipeline_envelope_discipline (resp : HttpResponse)
    (hok : respOk resp.status = true) :
    (isErrorEnvelope resp.body = true →
      ∃ e, makeRequest (.success resp) = .error e ∧
        ((∃ m l, e = .rateLimitError m l) ∨ (∃ m, e = .plainError m))) ∧
    (isErrorEnvelope resp.body = false → resp.body ≠ .null →
      makeRequest (.success resp) = .ok (convertApiResponse (removeStatusField resp.body)) ∧
      hasStatusField (convertApiResponse (removeStatusField resp.body)) = false) ∧
    (resp.body = .null →
      makeRequest (.success resp) = .error (.plainError
        ("API request failed: " ++ "Cannot read properties of null (reading 'status')"))) ∧
    getPricing (.success resp) = .ok (convertApiResponse resp.body) := by
  refine ⟨?_, ?_, ?_, ?_⟩
  · intro herr
    obtain ⟨fields, hb, hs⟩ := (isErrorEnvelope_iff_fields resp.body).mp herr
    cases hm : lookupField fields "message" with
    | none =>
        exact ⟨.plainError "API request failed: Unknown API error",
          by simp [makeRequest, runTry, tryBlock, hok, hb, hs, errorEnvelopeBranch, hm,
            handleCatch],
          Or.inr ⟨_, rfl⟩⟩
    | some v =>
        cases v with
        | null =>
            exact ⟨.plainError "API request failed: Unknown API error",
              by simp [makeRequest, runTry, tryBlock, hok, hb, hs, errorEnvelopeBranch, hm,
                handleCatch],
              Or.inr ⟨_, rfl⟩⟩
        | str m =>
            by_cases hcl : containsLimitPhrase m = true
            · exact ⟨.rateLimitError m none,
                by simp [makeRequest, runTry, tryBlock, hok, hb, hs, errorEnvelopeBranch, hm,
                  hcl, handleCatch],
                Or.inl ⟨m, none, rfl⟩⟩
            · exact ⟨.plainError ("API request failed: " ++
                  (if m = "" then "Unknown API error" else m)),
                by simp [makeRequest, runTry, tryBlock, hok, hb, hs, errorEnvelopeBranch, hm,
                  hcl, handleCatch],
                Or.inr ⟨_, rfl⟩⟩
        | arr xs =>
            by_cases hin : (jsonListHasStr xs "rate limit" || jsonListHasStr xs "limit") = true
            · exact ⟨.rateLimitError (jsToString (.arr xs)) none,
                by simp [makeRequest, runTry, tryBlock, hok, hb, hs, errorEnvelopeBranch, hm,
                  hin, handleCatch],
                Or.inl ⟨_, none, rfl⟩⟩
            · exact ⟨.plainError ("API request failed: " ++ jsToString (.arr xs)),
                by simp [makeRequest, runTry, tryBlock, hok, hb, hs, errorEnvelopeBranch, hm,
                  hin, handleCatch],
                Or.inr ⟨_, rfl⟩⟩
        | bool b =>
            exact ⟨.plainError ("API request failed: " ++
                "result.message?.includes is not a function"),
              by simp [makeRequest, runTry, tryBlock, hok, hb, hs, errorEnvelopeBranch, hm,
                handleCatch],
              Or.inr ⟨_, rfl⟩⟩
        | num n =>
            exact ⟨.plainError ("API request failed: " ++
                "result.message?.includes is not a function"),
              by simp [makeRequest, runTry, tryBlock, hok, hb, hs, errorEnvelopeBranch, hm,
                handleCatch],
              Or.inr ⟨_, rfl⟩⟩
        | obj g =>
            exact ⟨.plainError ("API request failed: " ++
                "result.message?.includes is not a function"),
              by simp [makeRequest, runTry, tryBlock, hok, hb, hs, errorEnvelopeBranch, hm,
                handleCatch],
              Or.inr ⟨_, rfl⟩⟩
  · intro hne hnull
    refine ⟨?_, hasStatusField_convert_removeStatus resp.body⟩
    cases hb : resp.body with
    | null => exact absurd hb hnull
    | obj fields =>
        cases hl : lookupField fields "status" with
        | none =>
            simp [makeRequest, runTry, tryBlock, hok, hb, hl, removeStatusField]
        | some v =>
            cases v with
            | str s =>
                have hs : s ≠ "ERROR" := by
                  intro hc
                  rw [hb] at hne
                  exact absurd ((isErrorEnvelope_iff_fields (.obj fields)).mpr
                    ⟨fields, rfl, by rw [hl, hc]⟩) (by simp [hne])
                simp [makeRequest, runTry, tryBlock, hok, hb, hl, hs, removeStatusField]
            | null => simp [makeRequest, runTry, tryBlock, hok, hb, hl, removeStatusField]
            | bool b => simp [makeRequest, runTry, tryBlock, hok, hb, hl, removeStatusField]
            | num n => simp [makeRequest, runTry, tryBlock, hok, hb, hl, removeStatusField]
            | arr es => simp [makeRequest, runTry, tryBlock, hok, hb, hl, removeStatusField]
            | obj fs => simp [makeRequest, runTry, tryBlock, hok, hb, hl, removeStatusField]
    | bool b => simp [makeRequest, runTry, tryBlock, hok, hb, removeStatusField]
    | num n => simp [makeRequest, runTry, tryBlock, hok, hb, removeStatusField]
    | str s => simp [makeRequest, runTry, tryBlock, hok, hb, removeStatusField]
    | arr es => simp [makeRequest, runTry, tryBlock, hok, hb, removeStatusField]
  · intro hb
    simp [makeRequest, runTry, tryBlock, hok, hb, handleCatch]
  · simp [getPricing, hok]

/-- C4 witness: a plain success envelope has its status field stripped. -/
theorem makeRequest_pipeline_envelope_discipline_witness :
    makeRequest (.success ⟨200, "OK", .obj (.cons "status" (.str "SUCCESS") .nil)⟩) =
      .ok (.obj .nil) :=
  ((makeRequest_pipeline_envelope_discipline
      ⟨200, "OK", .obj (.cons "status" (.str "SUCCESS") .nil)⟩ rfl).2.1 rfl
      (fun h => Json.noConfusion h)).1

/-- C5: a 403 transport status short-circuits before the body is ever
parsed, so whatever the body and status text are, the call fails with the
PorkbunAuthError carrying the fixed message, and with no other error
class. -/
theorem makeRequest_403_auth (statusText : String) (body : Json) :
    makeRequest (.success ⟨403, statusText, body⟩) =
      .error (.authError "Authentication failed or additional authentication required") := rfl

/-- C6: on a 2xx envelope failure, a string message containing the text
limit (which the text rate limit always contains) yields the rate limit
error carrying the message and never the plain error; a string message
containing neither yields a plain error carrying the message, with the
fallback text Unknown API error when the message is empty; the same
fallback is raised when the message field is absent, or holds null, which
the optional chaining treats the same way.  The plain error message arrives
wrapped by the catch block with the prefix API request failed, so the
original message is carried as its suffix.  A message holding any other
JSON value takes a different path in the source (a TypeError on .includes,
or the array includes test), modeled faithfully by errorEnvelopeBranch and
outside this claim about message text. -/
theorem makeRequest_api_error_classification (fields : JsonFields) (resp : HttpResponse)
    (hbody : resp.body = .obj fields)
    (hok : respOk resp.status = true)
    (hstatus : lookupField fields "status" = some (.str "ERROR")) :
    (∀ m, lookupField fields "message" = some (.str m) →
      (containsSubstring m "limit" = true →
        makeRequest (.success resp) = .error (.rateLimitError m none)) ∧
      (containsSubstring m "limit" = false →
        makeRequest (.success resp) =
          .error (.plainError ("API request failed: " ++
            (if m = "" then "Unknown API error" else m))))) ∧
    ((lookupField fields "message" = none ∨ lookupField fields "message" = some .null) →
      makeRequest (.success resp) =
        .error (.plainError "API request failed: Unknown API error")) := by
  constructor
  · intro m hm
    constructor
    · intro hcl
      have hphrase : containsLimitPhrase m = true := by rw [containsLimitPhrase_eq]; exact hcl
      simp [makeRequest, runTry, tryBlock, hok, hbody, hstatus, errorEnvelopeBranch, hm,
        hphrase, handleCatch]
    · intro hcl
      have hphrase : containsLimitPhrase m = false := by rw [containsLimitPhrase_eq]; exact hcl
      simp [makeRequest, runTry, tryBlock, hok, hbody, hstatus, errorEnvelopeBranch, hm,
        hphrase, handleCatch]
  · intro hm
    rcases hm with hm | hm <;>
      simp [makeRequest, runTry, tryBlock, hok, hbody, hstatus, errorEnvelopeBranch, hm,
        handleCatch]

/-- C6 witness: the scenario of the spec, a 2xx ERROR envelope with message
rate limit exceeded, fails with the rate limit error carrying it. -/
theorem makeRequest_api_error_classification_witness :
    makeRequest (.success ⟨200, "OK",
      .obj (.cons "status" (.str "ERROR") (.cons "message" (.str "rate limit exceeded") .nil))⟩) =
      .error (.rateLimitError "rate limit exceeded" none) :=
  ((makeRequest_api_error_classification
      (.cons "status" (.str "ERROR") (.cons "message" (.str "rate limit exceeded") .nil))
      ⟨200, "OK", .obj (.cons "status" (.str "ERROR") (.cons "message" (.str "rate limit exceeded") .nil))⟩
      rfl rfl rfl).1 "rate limit exceeded" rfl).1 rfl

/-- C7: for the three by-type operations, an empty subdomain produces the
path that stops at the type segment, with no empty trailing segment and no
trailing slash, and a non-empty subdomain appends exactly one further
segment holding the subdomain verbatim. -/
theorem byTypePath_subdomain_handling (domain : String) (t : DNSRecordType) (subdomain : String) :
    (editDNSRecordsByTypePath domain t "" = "/dns/editByNameType/" ++ domain ++ "/" ++ t.toStr) ∧
    (deleteDNSRecordsByTypePath domain t "" = "/dns/deleteByNameType/" ++ domain ++ "/" ++ t.toStr) ∧
    (getDNSRecordsByTypePath domain t "" = "/dns/retrieveByNameType/" ++ domain ++ "/" ++ t.toStr) ∧
    (subdomain ≠ "" →
      editDNSRecordsByTypePath domain t subdomain =
        editDNSRecordsByTypePath domain t "" ++ "/" ++ subdomain ∧
      deleteDNSRecordsByTypePath domain t subdomain =
        deleteDNSRecordsByTypePath domain t "" ++ "/" ++ subdomain ∧
      getDNSRecordsByTypePath domain t subdomain =
        getDNSRecordsByTypePath domain t "" ++ "/" ++ subdomain) ∧
    (editDNSRecordsByTypePath domain t "").data.getLast? ≠ some '/' ∧
    (deleteDNSRecordsByTypePath domain t "").data.getLast? ≠ some '/' ∧
    (getDNSRecordsByTypePath domain t "").data.getLast? ≠ some '/' := by
  have htype : t.toStr.data ≠ [] := by cases t <;> decide
  have hslash : t.toStr.data.getLast? ≠ some '/' := by cases t <;> decide
  refine ⟨rfl, rfl, rfl, ?_, ?_, ?_, ?_⟩
  · intro hsub
    refine ⟨?_, ?_, ?_⟩ <;> simp [editDNSRecordsByTypePath, deleteDNSRecordsByTypePath,
      getDNSRecordsByTypePath, hsub]
  · rw [show editDNSRecordsByTypePath domain t "" =
      ("/dns/editByNameType/" ++ domain ++ "/") ++ t.toStr from rfl,
      strLast_append _ _ htype]
    exact hslash
  · rw [show deleteDNSRecordsByTypePath domain t "" =
      ("/dns/deleteByNameType/" ++ domain ++ "/") ++ t.toStr from rfl,
      strLast_append _ _ htype]
    exact hslash
  · rw [show getDNSRecordsByTypePath domain t "" =
      ("/dns/retrieveByNameType/" ++ domain ++ "/") ++ t.toStr from rfl,
      strLast_append _ _ htype]
    exact hslash

/-- C7 witness: the TXT records of example.com, with and without the www
subdomain. -/
theorem byTypePath_subdomain_handling_witness :
    editDNSRecordsByTypePath "example.com" .TXT "www" =
      "/dns/editByNameType/example.com/TXT" ++ "/" ++ "www" :=
  (((byTypePath_subdomain_handling "example.com" .TXT "www").2.2.2.1
    (by decide)).1).trans (by rfl)

/-- C8 counterexample: a non-2xx non-403 transport failure raises the same
plain Error class, with the same API request failed prefix, as an API level
envelope failure; a 500 response and a 2xx ERROR envelope whose message
happens to be the same text produce identical error values, so the
transport failure carries no classification distinct from the API error
and no structured status payload.  This refutes the distinctness part of
the claim. -/
theorem transport_error_equals_api_error_counterexample :
    makeRequest (.success ⟨500, "Internal Server Error", Json.null⟩) =
      makeRequest (.success ⟨200, "OK", .obj (.cons "status" (.str "ERROR")
        (.cons "message" (.str "HTTP 500: Internal Server Error") .nil))⟩) ∧
    makeRequest (.success ⟨500, "Internal Server Error", Json.null⟩) =
      .error (.plainError "API request failed: HTTP 500: Internal Server Error") :=
  ⟨rfl, rfl⟩

/-- C8 amended: on a non-2xx status other than 403 the call fails with the
plain Error class, the same runtime class the generic API errors use, and
the numeric status and status text are carried only inside the message
text, behind the API request failed prefix added by the catch block. -/
theorem makeRequest_transport_error_same_class (resp : HttpResponse)
    (hnok : respOk resp.status = false) (h403 : resp.status ≠ 403) :
    makeRequest (.success resp) =
      .error (.plainError ("API request failed: " ++
        ("HTTP " ++ toString resp.status ++ ": " ++ resp.statusText))) ∧
    errClass (.plainError ("API request failed: " ++
        ("HTTP " ++ toString resp.status ++ ": " ++ resp.statusText)))
      = errClass (.plainError "API request failed: some API failure") := by
  refine ⟨?_, rfl⟩
  simp [makeRequest, runTry, tryBlock, hnok, h403, handleCatch]

/-- C8 witness: a 503 is wrapped into the plain error with the status in
the message. -/
theorem makeRequest_transport_error_same_class_witness :
    makeRequest (.success ⟨503, "Service Unavailable", Json.null⟩) =
      .error (.plainError "API request failed: HTTP 503: Service Unavailable") :=
  (makeRequest_transport_error_same_class ⟨503, "Service Unavailable", Json.null⟩
    rfl (by decide)).1

/-- C9: the constructed client keeps the caller configured timeout and
substitutes 30000 when the configuration omits it, and when the timeout
elapses before the response the fetch rejects with the AbortError of the
AbortController wired by setTimeout, which the catch block turns into the
plain error Request timeout and nothing else.  The elapse of the deadline
is modeled by the abortError fetch outcome. -/
theorem mkClient_timeout_and_abort (config : PorkbunConfig) :
    (config.timeout = none → (mkClient config).timeout = 30000) ∧
    (∀ t, config.timeout = some t → t ≠ 0 → (mkClient config).timeout = t) ∧
    makeRequest .abortError = .error (.plainError "Request timeout") := by
  refine ⟨?_, ?_, rfl⟩
  · intro h; simp [mkClient, h]
  · intro t ht h0; simp [mkClient, ht, h0]

/-- C9 witness: the default, a configured timeout, and the abort outcome. -/
theorem mkClient_timeout_and_abort_witness :
    (mkClient { apiKey := "k", secretKey := "s" }).timeout = 30000 ∧
    (mkClient { apiKey := "k", secretKey := "s", timeout := some 5000 }).timeout = 5000 ∧
    makeRequest .abortError = .error (.plainError "Request timeout") :=
  ⟨(mkClient_timeout_and_abort { apiKey := "k", secretKey := "s" }).1 rfl,
   (mkClient_timeout_and_abort { apiKey := "k", secretKey := "s", timeout := some 5000 }).2.1
     5000 rfl (by decide),
   (mkClient_timeout_and_abort { apiKey := "k", secretKey := "s" }).2.2⟩

/-- C10: the constructor applies its defaults with the or-operator, testing
truthiness rather than presence, so a configured timeout of 0 and a
configured empty baseUrl are silently replaced by 30000 and the production
base URL. -/
theorem mkClient_truthiness_defaults (config : PorkbunConfig) :
    (config.timeout = some 0 → (mkClient config).timeout = 30000) ∧
    (config.baseUrl = some "" → (mkClient config).baseUrl = defaultBaseUrl) := by
  constructor
  · intro h; simp [mkClient, h]
  · intro h; simp [mkClient, h]

/-- C10 witness: a zero timeout and an empty base URL get the defaults. -/
theorem mkClient_truthiness_defaults_witness :
    (mkClient { apiKey := "k", secretKey := "s", baseUrl := some "", timeout := some 0 }).timeout
      = 30000 ∧
    (mkClient { apiKey := "k", secretKey := "s", baseUrl := some "", timeout := some 0 }).baseUrl
      = defaultBaseUrl :=
  ⟨(mkClient_truthiness_defaults
      { apiKey := "k", secretKey := "s", baseUrl := some "", timeout := some 0 }).1 rfl,
   (mkClient_truthiness_defaults
      { apiKey := "k", secretKey := "s", baseUrl := some "", timeout := some 0 }).2 rfl⟩

end Porkbun
